import Mathlib

/-!
Shallow embedding of the feed synchronization core of
`anchore_engine/services/policy_engine/engine/feeds/feeds.py`.

Python datetimes are modelled as a wall-clock value plus a UTC-marker flag
(`replace(tzinfo=utc)` keeps the wall clock and sets the flag).  Database
sessions are modelled by explicit state passing: a `committed` state and a
`session` state; `commit` copies the session over the committed state and
`rollback` discards the session.  Exceptions are modelled with
`Except String`.
-/

/-- A python datetime: wall-clock value plus whether a UTC tzinfo is attached. -/
structure Timestamp where
  wall : Nat
  utc : Bool
deriving DecidableEq, Repr

/-- Models `dt.replace(tzinfo=datetime.timezone.utc)`. -/
def normalize_utc (t : Timestamp) : Timestamp :=
  { t with utc := true }

/-- Python `str` of an optional string, `None` rendered as in Python. -/
def pystr : Option String → String
  | none => "None"
  | some s => s

/-- Embeds `log_msg_ctx(operation_id, feed, group, msg)`. -/
def log_msg_ctx (operation_id : Option String) (feed : Option String)
    (group : Option String) (msg : String) : String :=
  msg ++ " (operation_id=" ++ pystr operation_id ++ ", feed=" ++ pystr feed ++
    ", group=" ++ pystr group ++ ")"

/-- Result record built by `build_group_sync_result()`. -/
structure GroupSyncResult where
  group : Option String
  status : String
  total_time_seconds : Nat
  updated_record_count : Nat
  updated_image_count : Nat
deriving DecidableEq, Repr

/-- `build_group_sync_result()` returns the all-default failure record. -/
def build_group_sync_result : GroupSyncResult :=
  { group := none, status := "failure", total_time_seconds := 0
    updated_record_count := 0, updated_image_count := 0 }

/-- Result record built by `build_feed_sync_results()`. -/
structure FeedSyncResult where
  feed : Option String
  status : String
  total_time_seconds : Nat
  groups : List GroupSyncResult
deriving DecidableEq, Repr

/-- `build_feed_sync_results()` returns the all-default failure record. -/
def build_feed_sync_results : FeedSyncResult :=
  { feed := none, status := "failure", total_time_seconds := 0, groups := [] }

/-- Python `str.lower()`, modelled character-wise. -/
def py_lower (s : String) : String :=
  String.mk (s.data.map Char.toLower)

/-- Embeds `FeedMeta.get_feed_by_name`: the registry is an insertion-ordered
map from lowercased feed name to the registered feed class (represented by its
class name).  Mirrors the source: direct lowercase lookup first; on a miss the
source returns the first registered value when the registry is non-empty and
raises `KeyError(name)` only when the registry is empty. -/
def get_feed_by_name (registry : List (String × String)) (name : String) :
    Except String String :=
  match (registry.find? (fun p => p.1 == py_lower name)).map Prod.snd with
  | some found => .ok found
  | none =>
    match registry.map Prod.snd with
    | [] => .error name
    | f :: _ => .ok f

/-- Persisted `FeedMetadata` row (timestamp columns used by the sync core). -/
structure FeedMetadata where
  last_update : Option Timestamp
  last_full_sync : Option Timestamp
deriving DecidableEq, Repr

/-- Persisted `FeedGroupMetadata` row. -/
structure FeedGroupMetadata where
  feed_name : String
  name : String
  last_sync : Option Timestamp
deriving DecidableEq, Repr

/-- Embeds `AnchoreServiceFeed.group_by_name`: first group with the name. -/
def group_by_name (groups : List FeedGroupMetadata) (group_name : String) :
    Option FeedGroupMetadata :=
  (groups.filter (fun x => x.name == group_name)).head?

/-- Setting `group_db_obj.last_sync` mutates the object returned by
`group_by_name`, i.e. the first group with the given name. -/
def update_first_group : List FeedGroupMetadata → String → Timestamp →
    List FeedGroupMetadata
  | [], _, _ => []
  | x :: xs, g, t =>
    if x.name == g then { x with last_sync := some t } :: xs
    else x :: update_first_group xs g t

/-- A `GroupDownloadResult` entry of the download manifest. -/
structure GroupDownloadResult where
  feed : String
  group : String
  started : Timestamp
  total_records : Nat
deriving DecidableEq, Repr

/-- Raw record as produced by `LocalFeedDataRepo.read`. -/
abbrev RawRecord := String

/-- Persisted `GenericFeedDataRecord` entity keyed by a single key. -/
structure GenericFeedDataRecord where
  key : String
  payload : String
deriving DecidableEq, Repr

/-- SQLAlchemy `session.merge` on generic rows: upsert by primary key. -/
def merge_generic (rows : List GenericFeedDataRecord)
    (e : GenericFeedDataRecord) : List GenericFeedDataRecord :=
  if rows.any (fun r => r.key == e.key)
  then rows.map (fun r => if r.key == e.key then e else r)
  else rows ++ [e]

/-- Persisted `FixedArtifact` child row of a vulnerability. -/
structure FixedArtifact where
  name : String
  epochless_version : String
  version : String
deriving DecidableEq, Repr

/-- Persisted `Vulnerability` entity with its nested `fixed_in` collection. -/
structure Vulnerability where
  id : String
  namespace_name : String
  fixed_in : List FixedArtifact
deriving DecidableEq, Repr

/-- The set comprehension over `fixed_in` used by `_are_match_equivalent`. -/
def normalized_fixes (v : Vulnerability) : Finset (String × String × String) :=
  (v.fixed_in.map (fun fix => (fix.name, fix.epochless_version, fix.version))).toFinset

/-- Embeds `VulnerabilityFeed._are_match_equivalent`.  Arguments are optional
to model Python `None`.  Mirrors the source control flow: when the guard
condition holds the function first formats a debug log that reads `.id` and
`.namespace_name` of both arguments, so a null argument raises
`AttributeError` instead of returning `False`. -/
def _are_match_equivalent (vulnerability_a vulnerability_b : Option Vulnerability) :
    Except String Bool :=
  match vulnerability_a, vulnerability_b with
  | some a, some b =>
    if a.id ≠ b.id ∨ a.namespace_name ≠ b.namespace_name then
      .ok false
    else
      let normalized_fixes_a := normalized_fixes a
      let normalized_fixes_b := normalized_fixes b
      let fix_diff := (normalized_fixes_a \ normalized_fixes_b) ∪
        (normalized_fixes_b \ normalized_fixes_a)
      if fix_diff = ∅ then .ok true else .ok false
  | _, _ => .error "AttributeError"

/-- Spec-side definition of match-equivalence for non-null records, written
from the specification: same `id`, same `namespace_name`, and equal sets of
normalized `fixed_in` triples.  Used to state refinement of the code
definition `_are_match_equivalent`. -/
def match_equivalent_spec (a b : Vulnerability) : Bool :=
  decide (a.id = b.id) && decide (a.namespace_name = b.namespace_name) &&
    decide (normalized_fixes a = normalized_fixes b)

/-- SQLAlchemy `session.merge` on vulnerabilities: upsert by the
`(id, namespace_name)` primary key. -/
def merge_vuln (rows : List Vulnerability) (v : Vulnerability) :
    List Vulnerability :=
  if rows.any (fun r => r.id == v.id && r.namespace_name == v.namespace_name)
  then rows.map
    (fun r => if r.id == v.id && r.namespace_name == v.namespace_name then v else r)
  else rows ++ [v]

/-- Embeds `db.query(Vulnerability).filter(id, namespace_name).one_or_none()`:
raises when more than one row matches. -/
def query_one_or_none (rows : List Vulnerability) (i ns : String) :
    Except String (Option Vulnerability) :=
  match rows.filter (fun v => v.id == i && v.namespace_name == ns) with
  | [] => .ok none
  | [v] => .ok (some v)
  | _ => .error "MultipleResultsFound"

/-- Embeds `VulnerabilityFeed.update_vulnerability`.  The db session is the
current list of vulnerability rows; the bare `except` around the lookup turns
any lookup error into `existing = None`.  Returns the updates produced by the
processing function together with the session after `db.merge`. -/
def update_vulnerability (session : List Vulnerability)
    (vulnerability_record : Vulnerability)
    (vulnerability_processing_fn : Option (Vulnerability → List String)) :
    Except String (List String × List Vulnerability) :=
  let existing : Option Vulnerability :=
    match query_one_or_none session vulnerability_record.id
        vulnerability_record.namespace_name with
    | .ok e => e
    | .error _ => none
  match (match existing with
         | some ex =>
           (_are_match_equivalent (some ex) (some vulnerability_record)).map
             (fun b => !b)
         | none => Except.ok true) with
  | .error e => .error e
  | .ok needs_update =>
    let merged := merge_vuln session vulnerability_record
    match vulnerability_processing_fn, needs_update with
    | some f, true => .ok (f vulnerability_record, merged)
    | _, _ => .ok ([], merged)

/-- Spec-side definition of `needs_update`, written from the specification:
true exactly when the lookup by `(id, namespace_name)` finds no existing row
(any lookup error counting as no existing row) or the existing row is not
match-equivalent to the new record. -/
def needs_update_spec (session : List Vulnerability) (record : Vulnerability) :
    Bool :=
  match query_one_or_none session record.id record.namespace_name with
  | .ok (some existing) => !(match_equivalent_spec existing record)
  | _ => true

/-- `AnchoreServiceFeed.RECORDS_PER_CHUNK`. -/
def RECORDS_PER_CHUNK : Nat := 500

/-- Database state visible to a generic feed: group metadata rows plus the
generic feed-data rows. -/
structure DbState where
  groups : List FeedGroupMetadata
  rows : List GenericFeedDataRecord
deriving DecidableEq, Repr

/-- Embeds `AnchoreServiceFeed._flush_group` for the generic feed: the flush
helper is `None` for the generic feed and
`db.query(GenericFeedDataRecord).delete()` removes every generic row; no
commit, so the deletion lives in the session only. -/
def generic_flush_group (db : DbState) : DbState :=
  { db with rows := [] }

/-- The chunked merge loop of `AnchoreServiceFeed._sync_group`: map each raw
record, merge it into the session, and commit every `RECORDS_PER_CHUNK`
records.  Returns the committed state paired with either the raised error
(session discarded by the subsequent rollback) or the final session and the
total updated count. -/
def process_records (m : RawRecord → Except String GenericFeedDataRecord) :
    List RawRecord → DbState → DbState → Nat → Nat →
    DbState × Except String (DbState × Nat)
  | [], committed, session, _count, total => (committed, .ok (session, total))
  | r :: rest, committed, session, count, total =>
    match m r with
    | .error e => (committed, .error e)
    | .ok mapped =>
      let session2 := { session with rows := merge_generic session.rows mapped }
      if count + 1 ≥ RECORDS_PER_CHUNK then
        process_records m rest session2 session2 0 (total + 1)
      else
        process_records m rest committed session2 (count + 1) (total + 1)

/-- Embeds `AnchoreServiceFeed._sync_group`.  `meta` models `self.metadata`
(the feed metadata row; group lookup is skipped when it is absent); `mapper`
models `_load_mapper` (`none` raises `No mapper class found`); `repo_read`
models `local_repo.read`.  Returns the result (or raised error) together with
the committed database state: on an exception the session rolls back, so the
state is whatever the chunk commits had already persisted. -/
def AnchoreServiceFeed_sync_group (db : DbState) (meta : Option FeedMetadata)
    (mapper : Option (RawRecord → Except String GenericFeedDataRecord))
    (gdr : GroupDownloadResult) (full_flush : Bool)
    (repo_read : String → String → List RawRecord) :
    Except String GroupSyncResult × DbState :=
  let result := { build_group_sync_result with group := some gdr.group }
  let group_db_obj := match meta with
    | some _ => group_by_name db.groups gdr.group
    | none => none
  match group_db_obj with
  | none => (.ok result, db)
  | some _ =>
    let download_started := normalize_utc gdr.started
    let session := if full_flush then generic_flush_group db else db
    match mapper with
    | none => (.error ("No mapper class found for group: " ++ gdr.group), db)
    | some m =>
      match process_records m (repo_read gdr.feed gdr.group) db session 0 0 with
      | (committed, .error e) => (.error e, committed)
      | (_, .ok (session2, total)) =>
        let committed :=
          { session2 with
            groups := update_first_group session2.groups gdr.group download_started }
        (.ok { result with
                 updated_record_count := total
                 status := "success"
                 total_time_seconds := 0
                 updated_image_count := 0 }, committed)

/-- Database state visible to the vulnerability feed: group metadata rows plus
vulnerability rows (with their nested fixed-artifact children). -/
structure VulnDbState where
  groups : List FeedGroupMetadata
  vulns : List Vulnerability
deriving DecidableEq, Repr

/-- Embeds `VulnerabilityFeed._flush_group`: the flush helper removes derived
image-match rows (external, not modelled) and the queries delete the
`FixedArtifact` and `Vulnerability` rows whose `namespace_name` equals the
group name; the nested `fixed_in` children leave with their parent rows. -/
def vuln_flush_group (db : VulnDbState) (group_name : String) : VulnDbState :=
  { db with vulns := db.vulns.filter (fun v => !(v.namespace_name == group_name)) }

/-- The chunked merge loop of `VulnerabilityFeed._sync_group`: map each raw
record, run `update_vulnerability` against the session, merge the mapped
record, and commit every `RECORDS_PER_CHUNK` records.  The union of updated
image ids is computed by the source but only used for logging, so it is not
accumulated here. -/
def vuln_process_records (m : RawRecord → Except String Vulnerability)
    (fn : Option (Vulnerability → List String)) :
    List RawRecord → VulnDbState → VulnDbState → Nat → Nat →
    VulnDbState × Except String (VulnDbState × Nat)
  | [], committed, session, _count, total => (committed, .ok (session, total))
  | r :: rest, committed, session, count, total =>
    match m r with
    | .error e => (committed, .error e)
    | .ok mapped =>
      match update_vulnerability session.vulns mapped fn with
      | .error e => (committed, .error e)
      | .ok (_updated_image_ids, vulns2) =>
        let session2 := { session with vulns := merge_vuln vulns2 mapped }
        if count + 1 ≥ RECORDS_PER_CHUNK then
          vuln_process_records m fn rest session2 session2 0 (total + 1)
        else
          vuln_process_records m fn rest committed session2 (count + 1) (total + 1)

/-- Embeds `VulnerabilityFeed._sync_group`.  Unlike the generic version the
source refreshes `self.metadata` unconditionally, which raises when the
metadata row is absent. -/
def VulnerabilityFeed_sync_group (db : VulnDbState) (meta : Option FeedMetadata)
    (mapper : Option (RawRecord → Except String Vulnerability))
    (fn : Option (Vulnerability → List String))
    (gdr : GroupDownloadResult) (full_flush : Bool)
    (repo_read : String → String → List RawRecord) :
    Except String GroupSyncResult × VulnDbState :=
  let result := { build_group_sync_result with group := some gdr.group }
  match meta with
  | none => (.error "UnmappedInstanceError", db)
  | some _ =>
    match group_by_name db.groups gdr.group with
    | none => (.ok result, db)
    | some _ =>
      let download_started := normalize_utc gdr.started
      let session := if full_flush then vuln_flush_group db gdr.group else db
      match mapper with
      | none => (.error ("No mapper class found for group: " ++ gdr.group), db)
      | some m =>
        match vuln_process_records m fn (repo_read gdr.feed gdr.group) db session 0 0 with
        | (committed, .error e) => (.error e, committed)
        | (_, .ok (session2, total)) =>
          let committed :=
            { session2 with
              groups := update_first_group session2.groups gdr.group download_started }
          (.ok { result with
                   updated_record_count := total
                   status := "success"
                   total_time_seconds := 0
                   updated_image_count := 0 }, committed)

/-- Events handed to `notify_event`.  Event delivery is best-effort (client
errors are swallowed and a missing client degrades to a log line), so the
observable behaviour is the ordered list of emitted events. -/
inductive FeedEvent where
  | started (feed group : String)
  | completed (feed group : String) (result : GroupSyncResult)
  | failed (feed group : String) (error : String)
deriving DecidableEq, Repr

/-- Output of the per-group loop inside `AnchoreServiceFeed.sync`. -/
structure LoopOut (σ : Type) where
  groups : List GroupSyncResult
  failed_count : Nat
  events : List FeedEvent
  logs : List String
  st : σ
deriving Repr

/-- The per-group loop of `AnchoreServiceFeed.sync`: for each group download
result emit `FeedGroupSyncStarted`, run `_sync_group` inside try/except, on
success append the group result and emit `FeedGroupSyncCompleted`, on failure
bump the failure counter and emit `FeedGroupSyncFailed` carrying the error,
then continue with the next group.  `_sync_group` is a parameter to model the
dynamic dispatch to the feed subclass. -/
def sync_groups_loop {σ : Type} (operation_id : Option String)
    (sync_group : σ → GroupDownloadResult → Except String GroupSyncResult × σ) :
    List GroupDownloadResult → σ → LoopOut σ
  | [], st => { groups := [], failed_count := 0, events := [], logs := [], st := st }
  | g :: rest, st =>
    let l1 := log_msg_ctx operation_id (some g.feed) (some g.group)
      "Processing group for db update"
    match sync_group st g with
    | (.ok new_data, st2) =>
      let out := sync_groups_loop operation_id sync_group rest st2
      { groups := new_data :: out.groups
        failed_count := out.failed_count
        events := .started g.feed g.group ::
          .completed g.feed g.group new_data :: out.events
        logs := l1 :: out.logs
        st := out.st }
    | (.error e, st2) =>
      let out := sync_groups_loop operation_id sync_group rest st2
      { groups := out.groups
        failed_count := out.failed_count + 1
        events := .started g.feed g.group ::
          .failed g.feed g.group e :: out.events
        logs := l1 :: out.logs
        st := out.st }

/-- Embeds `AnchoreServiceFeed._update_last_full_sync_timestamp`: refresh the
metadata (raising `ValueError` when absent), set both timestamps to now, and
commit.  `commit_fails` injects a database error at the commit; on any error
the session is rolled back, so the caller keeps the unchanged metadata. -/
def _update_last_full_sync_timestamp (meta : Option FeedMetadata)
    (now : Timestamp) (commit_fails : Bool) : Except String FeedMetadata :=
  match meta with
  | none => .error "metadata object not found"
  | some m =>
    let session := { m with last_update := some now, last_full_sync := some now }
    if commit_fails then .error "commit failed" else .ok session

/-- Output of `AnchoreServiceFeed.sync`. -/
structure SyncOut (σ : Type) where
  result : Except String FeedSyncResult
  events : List FeedEvent
  logs : List String
  st : σ
  meta : Option FeedMetadata
deriving Repr

/-- Embeds `AnchoreServiceFeed.sync`: filter the manifest to this feed's
groups, run the per-group loop, then update the feed timestamps.  When the
timestamp update raises, the exception propagates to the caller (`result` is
the error and no result record is returned) and the rolled-back metadata is
unchanged; otherwise the result record's status is `success` exactly when the
failure counter is zero. -/
def AnchoreServiceFeed_sync {σ : Type} (feed_name : String)
    (sync_group : σ → GroupDownloadResult → Except String GroupSyncResult × σ)
    (manifest : List GroupDownloadResult) (st : σ) (meta : Option FeedMetadata)
    (now : Timestamp) (ts_commit_fails : Bool) (operation_id : Option String) :
    SyncOut σ :=
  let start_log := log_msg_ctx operation_id (some feed_name) none "Starting feed sync"
  let relevant := manifest.filter (fun g => g.feed == feed_name)
  let out := sync_groups_loop operation_id sync_group relevant st
  match _update_last_full_sync_timestamp meta now ts_commit_fails with
  | .error e =>
    { result := .error e, events := out.events, logs := start_log :: out.logs
      st := out.st, meta := meta }
  | .ok meta2 =>
    { result := .ok
        { feed := some feed_name
          status := if out.failed_count == 0 then "success" else "failure"
          total_time_seconds := 0
          groups := out.groups }
      events := out.events, logs := start_log :: out.logs
      st := out.st, meta := some meta2 }

/-- Embeds `VulnerabilityFeed.sync`: publish the group names to the
thread-local cache when metadata with groups exists (otherwise flush it), run
the inherited sync — the source calls `super().sync(fetched_data, full_flush,
event_client)`, leaving `operation_id` at its default `None` — and finally
flush the cache unconditionally.  The cache is modelled as
`Option (List String)` (`none` = empty/flushed) and its post-call value is the
second component. -/
def VulnerabilityFeed_sync (db : VulnDbState) (meta : Option FeedMetadata)
    (cache : Option (List String))
    (mapper : Option (RawRecord → Except String Vulnerability))
    (fn : Option (Vulnerability → List String))
    (repo_read : String → String → List RawRecord)
    (manifest : List GroupDownloadResult) (full_flush : Bool)
    (now : Timestamp) (ts_commit_fails : Bool) (operation_id : Option String) :
    SyncOut VulnDbState × Option (List String) :=
  let cache1 : Option (List String) :=
    if meta.isSome && !db.groups.isEmpty
    then some (db.groups.map (fun x => x.name))
    else none
  let out := AnchoreServiceFeed_sync "vulnerabilities"
    (fun st g => VulnerabilityFeed_sync_group st meta mapper fn g full_flush repo_read)
    manifest db meta now ts_commit_fails none
  (out, none)

/-! Concrete sample inputs used by closed evaluation theorems and witnesses. -/

/-- A sample manifest entry for feed `feedA`, group `g1`. -/
def gdr1 : GroupDownloadResult :=
  { feed := "feedA", group := "g1", started := { wall := 100, utc := false }
    total_records := 1 }

/-- A sample manifest entry for the vulnerabilities feed, group `g1`. -/
def gdrVuln : GroupDownloadResult :=
  { feed := "vulnerabilities", group := "g1"
    started := { wall := 100, utc := false }, total_records := 1 }

/-- Sample feed metadata row. -/
def meta1 : FeedMetadata := { last_update := none, last_full_sync := none }

/-- Sample group metadata row for group `g1`. -/
def groupMeta1 : FeedGroupMetadata :=
  { feed_name := "feedA", name := "g1", last_sync := none }

/-- Sample generic database containing group `g1` and no rows. -/
def db1 : DbState := { groups := [groupMeta1], rows := [] }

/-- Sample generic database with no group metadata at all. -/
def dbEmptyGroups : DbState := { groups := [], rows := [] }

/-- Sample vulnerability database containing group `g1` and no rows. -/
def vdb1 : VulnDbState := { groups := [groupMeta1], vulns := [] }

/-- A mapper that always succeeds on generic records. -/
def mapOk : RawRecord → Except String GenericFeedDataRecord :=
  fun r => .ok { key := r, payload := r }

/-- A mapper that always raises. -/
def mapFail : RawRecord → Except String GenericFeedDataRecord :=
  fun r => .error ("mapping error on " ++ r)

/-- A vulnerability mapper that always succeeds, namespacing into `g1`. -/
def vmapOk : RawRecord → Except String Vulnerability :=
  fun r => .ok { id := r, namespace_name := "g1", fixed_in := [] }

/-- A repo whose every group holds the single raw record `r1`. -/
def repo1 : String → String → List RawRecord := fun _ _ => ["r1"]

/-- A sample clock instant for the feed-level timestamp update. -/
def now5 : Timestamp := { wall := 5, utc := true }

/-- A sample vulnerability record. -/
def cve1 : Vulnerability :=
  { id := "CVE-1", namespace_name := "debian:10"
    fixed_in := [{ name := "pkg", epochless_version := "1.0", version := "1.0-1" }] }

/-- The group sync result produced by the successful generic witness run. -/
def okGroupResult1 : GroupSyncResult :=
  { group := some "g1", status := "success", total_time_seconds := 0
    updated_record_count := 1, updated_image_count := 0 }

/-- The feed sync result returned when the only manifest group is missing from
the group metadata: the group result keeps its default `failure` status while
the feed-level status is `success`. -/
def c2FeedResult : FeedSyncResult :=
  { feed := some "feedA", status := "success", total_time_seconds := 0
    groups := [{ group := some "g1", status := "failure", total_time_seconds := 0
                 updated_record_count := 0, updated_image_count := 0 }] }

/-- The group-sync behaviour used in the C2 scenario: generic `_sync_group`
over a database with no group metadata rows. -/
def c2SyncGroup : DbState → GroupDownloadResult →
    Except String GroupSyncResult × DbState :=
  fun st g => AnchoreServiceFeed_sync_group st (some meta1) (some mapOk) g false repo1

/-! Helper lemmas shared by the claim theorems. -/

/-- For non-null records the source function agrees with the spec-side
definition of match-equivalence. -/
theorem are_match_equivalent_eq_spec (a b : Vulnerability) :
    _are_match_equivalent (some a) (some b) = .ok (match_equivalent_spec a b) := by
  unfold _are_match_equivalent match_equivalent_spec
  by_cases h1 : a.id = b.id
  · by_cases h2 : a.namespace_name = b.namespace_name
    · by_cases h3 : normalized_fixes a = normalized_fixes b
      · simp [h1, h2, h3]
      · have hd : ¬((normalized_fixes a \ normalized_fixes b) ∪
            (normalized_fixes b \ normalized_fixes a) = ∅) := by
          rw [Finset.union_eq_empty, Finset.sdiff_eq_empty_iff_subset,
            Finset.sdiff_eq_empty_iff_subset]
          rintro ⟨hab, hba⟩
          exact h3 (Finset.Subset.antisymm hab hba)
        simp [h1, h2, h3, hd]
    · simp [h2]
  · simp [h1]

/-- Spec-side match-equivalence is reflexive. -/
theorem match_equivalent_spec_refl (a : Vulnerability) :
    match_equivalent_spec a a = true := by
  simp [match_equivalent_spec]

/-- Spec-side match-equivalence is symmetric. -/
theorem match_equivalent_spec_comm (a b : Vulnerability) :
    match_equivalent_spec a b = match_equivalent_spec b a := by
  unfold match_equivalent_spec
  refine congrArg₂ _ (congrArg₂ _ ?_ ?_) ?_ <;>
    exact decide_eq_decide.mpr eq_comm

/-- C1: the claim says `get_feed_by_name` fails with a not-found error for
every name that is not a registry key, for any registry state.  The code
instead falls back to the first registered feed whenever the registry is
non-empty, and raises `KeyError` only when the registry is empty: on the
failing input (registry holding only `vulnerabilities`, looked up with the
unknown name `packages`) it silently returns the feed registered under a
different name. -/
theorem C1_registry_fallback_eval :
    get_feed_by_name [("vulnerabilities", "VulnerabilityFeed")] "packages" =
      .ok "VulnerabilityFeed" ∧
    get_feed_by_name [] "packages" = .error "packages" :=
  ⟨by rfl, by rfl⟩

/-- C4: for non-null records `_are_match_equivalent` returns true exactly when
ids, namespaces and the sets of normalized fixed-in triples agree, but on a
null argument the code raises `AttributeError` (the debug log in the guard
branch dereferences the null record) instead of returning false as the claim
states. -/
theorem C4_null_argument_raises :
    _are_match_equivalent none (some cve1) = .error "AttributeError" ∧
    _are_match_equivalent (some cve1) none = .error "AttributeError" ∧
    (∀ a b : Vulnerability,
      _are_match_equivalent (some a) (some b) = .ok (match_equivalent_spec a b)) :=
  ⟨rfl, rfl, are_match_equivalent_eq_spec⟩

/-- C8: match-equivalence is reflexive and symmetric on (non-null)
vulnerability records: `_are_match_equivalent(a, a)` holds, and
`_are_match_equivalent(a, b)` and `_are_match_equivalent(b, a)` coincide. -/
theorem C8_match_equivalent_refl_symm :
    (∀ a : Vulnerability, _are_match_equivalent (some a) (some a) = .ok true) ∧
    (∀ a b : Vulnerability,
      _are_match_equivalent (some a) (some b) =
        _are_match_equivalent (some b) (some a)) := by
  constructor
  · intro a
    rw [are_match_equivalent_eq_spec, match_equivalent_spec_refl]
  · intro a b
    rw [are_match_equivalent_eq_spec, are_match_equivalent_eq_spec,
      match_equivalent_spec_comm]

/-- C5: `update_vulnerability` invokes the processing function exactly when it
is configured and `needs_update` holds, where `needs_update` is true exactly
when the `(id, namespace_name)` lookup finds no existing row (any lookup error
counting as no existing row) or the existing row is not match-equivalent to
the new record; when the function is not invoked the returned collection is
empty.  The second component is the session after the merge. -/
theorem C5_update_vulnerability_characterization :
    ∀ (session : List Vulnerability) (record : Vulnerability)
      (fn : Option (Vulnerability → List String)),
      update_vulnerability session record fn =
        .ok ((match fn with
              | some f => if needs_update_spec session record then f record else []
              | none => []),
             merge_vuln session record) := by
  intro session record fn
  unfold update_vulnerability needs_update_spec
  cases hq : query_one_or_none session record.id record.namespace_name with
  | error e =>
    cases fn <;> simp [hq]
  | ok ex =>
    cases ex with
    | none => cases fn <;> simp [hq]
    | some ex0 =>
      simp only [are_match_equivalent_eq_spec, Except.map]
      cases fn with
      | none => simp
      | some f =>
        by_cases hne : match_equivalent_spec ex0 record = true
        · simp [hne]
        · rw [Bool.not_eq_true] at hne
          simp [hne]

/-- C2 counterexample: a manifest whose only group is missing from the group
metadata makes `_sync_group` return a `failure` group result without raising,
so the failure counter stays zero and the feed-level status is `success` even
though an element of `groups` has status `failure` — refuting the claimed
iff. -/
theorem C2_counterexample :
    (AnchoreServiceFeed_sync "feedA" c2SyncGroup [gdr1] dbEmptyGroups
      (some meta1) now5 false none).result = .ok c2FeedResult ∧
    c2FeedResult.status = "success" ∧
    c2FeedResult.groups.any (fun g => g.status == "failure") = true := by
  refine ⟨by rfl, rfl, by rfl⟩

/-- C2 as amended: for every feed sync that returns a result, the feed-level
status is `success` iff the per-group loop counted zero raised exceptions
(`failed_count == 0`); a group result appended with status `failure` but
without an exception does not force feed status `failure`. -/
theorem C2_amended_status_iff_no_exception :
    ∀ {σ : Type} (feed_name : String)
      (sync_group : σ → GroupDownloadResult → Except String GroupSyncResult × σ)
      (manifest : List GroupDownloadResult) (st : σ) (meta : Option FeedMetadata)
      (now : Timestamp) (tf : Bool) (op : Option String) (r : FeedSyncResult),
      (AnchoreServiceFeed_sync feed_name sync_group manifest st meta now tf op).result =
        .ok r →
      (r.status = "success" ↔
        (sync_groups_loop op sync_group
          (manifest.filter (fun g => g.feed == feed_name)) st).failed_count = 0) := by
  intro σ feed_name sync_group manifest st meta now tf op r h
  unfold AnchoreServiceFeed_sync at h
  cases ht : _update_last_full_sync_timestamp meta now tf with
  | error e => rw [ht] at h; cases h
  | ok m2 =>
    rw [ht] at h
    simp only [Except.ok.injEq] at h
    subst h
    by_cases hfc : (sync_groups_loop op sync_group
        (manifest.filter (fun g => g.feed == feed_name)) st).failed_count = 0
    · simp [hfc]
    · have hb : ((sync_groups_loop op sync_group
          (manifest.filter (fun g => g.feed == feed_name)) st).failed_count == 0) = false := by
        simpa using hfc
      simp only [hb, if_false]
      constructor
      · intro hcontra
        exact absurd hcontra (by decide)
      · intro hcontra
        exact absurd hcontra hfc

/-- C2 amended witness: the amended theorem applied to the concrete missing-
group scenario. -/
theorem C2_amended_witness :
    c2FeedResult.status = "success" ↔
      (sync_groups_loop none c2SyncGroup
        ([gdr1].filter (fun g => g.feed == "feedA")) dbEmptyGroups).failed_count = 0 :=
  C2_amended_status_iff_no_exception "feedA" c2SyncGroup [gdr1] dbEmptyGroups
    (some meta1) now5 false none c2FeedResult (by rfl)

/-- C6: an exception raised inside `_sync_group` for one group is caught by
the feed sync loop: the failure counter is incremented, a
`FeedGroupSyncFailed` event carrying the error is emitted after the group's
`Started` event, and the remaining groups are processed exactly as they would
have been on their own — a failed group never prevents the remaining groups
of the same feed from being attempted. -/
theorem C6_group_failure_isolated :
    ∀ {σ : Type} (op : Option String)
      (sync_group : σ → GroupDownloadResult → Except String GroupSyncResult × σ)
      (st st2 : σ) (g : GroupDownloadResult) (rest : List GroupDownloadResult)
      (e : String),
      sync_group st g = (.error e, st2) →
      sync_groups_loop op sync_group (g :: rest) st =
        { groups := (sync_groups_loop op sync_group rest st2).groups
          failed_count := (sync_groups_loop op sync_group rest st2).failed_count + 1
          events := .started g.feed g.group :: .failed g.feed g.group e ::
            (sync_groups_loop op sync_group rest st2).events
          logs := log_msg_ctx op (some g.feed) (some g.group)
              "Processing group for db update" ::
            (sync_groups_loop op sync_group rest st2).logs
          st := (sync_groups_loop op sync_group rest st2).st } := by
  intro σ op sync_group st st2 g rest e h
  conv_lhs => rw [sync_groups_loop, h]

/-- C6 witness: the theorem applied to a concrete two-group manifest whose
first group raises; the second group is still attempted and succeeds. -/
theorem C6_witness :
    sync_groups_loop none
      (fun (st : DbState) g =>
        if g.group == "bad" then (.error "boom", st)
        else AnchoreServiceFeed_sync_group st (some meta1) (some mapOk) g false repo1)
      [{ feed := "feedA", group := "bad", started := { wall := 7, utc := false }
         total_records := 0 }, gdr1] db1 =
      { groups := [okGroupResult1]
        failed_count := 1
        events := [.started "feedA" "bad", .failed "feedA" "bad" "boom",
          .started "feedA" "g1", .completed "feedA" "g1" okGroupResult1]
        logs := [log_msg_ctx none (some "feedA") (some "bad")
            "Processing group for db update",
          log_msg_ctx none (some "feedA") (some "g1")
            "Processing group for db update"]
        st := { groups := [{ feed_name := "feedA", name := "g1",
                             last_sync := some { wall := 100, utc := true } }]
                rows := [{ key := "r1", payload := "r1" }] } } := by
  rw [C6_group_failure_isolated none
    (fun (st : DbState) g =>
      if g.group == "bad" then (.error "boom", st)
      else AnchoreServiceFeed_sync_group st (some meta1) (some mapOk) g false repo1)
    db1 db1
    { feed := "feedA", group := "bad", started := { wall := 7, utc := false }
      total_records := 0 } [gdr1] "boom" (by rfl)]
  rfl

/-- C7 counterexample: when the post-group timestamp update fails (here a
commit failure is injected), `sync` propagates the raised error, so the caller
receives the exception and not a result record with status `failure` as the
claim states. -/
theorem C7_counterexample :
    (AnchoreServiceFeed_sync "feedA" c2SyncGroup [gdr1] db1 (some meta1)
      now5 true none).result = .error "commit failed" := by rfl

/-- C7 as amended: when the post-group update of the feed's timestamps fails,
the timestamp transaction is rolled back (the persisted feed metadata is
unchanged) and the error is propagated to the caller: `sync` raises the same
error instead of returning a result record. -/
theorem C7_amended_timestamp_error_propagates :
    ∀ {σ : Type} (feed_name : String)
      (sync_group : σ → GroupDownloadResult → Except String GroupSyncResult × σ)
      (manifest : List GroupDownloadResult) (st : σ) (meta : Option FeedMetadata)
      (now : Timestamp) (tf : Bool) (op : Option String) (e : String),
      _update_last_full_sync_timestamp meta now tf = .error e →
      (AnchoreServiceFeed_sync feed_name sync_group manifest st meta now tf op).result =
        .error e ∧
      (AnchoreServiceFeed_sync feed_name sync_group manifest st meta now tf op).meta =
        meta := by
  intro σ feed_name sync_group manifest st meta now tf op e h
  unfold AnchoreServiceFeed_sync
  rw [h]
  exact ⟨rfl, rfl⟩

/-- C7 amended witness: the amended theorem applied to the concrete injected
commit failure. -/
theorem C7_amended_witness :
    (AnchoreServiceFeed_sync "feedA" c2SyncGroup [gdr1] db1 (some meta1)
      now5 true none).result = .error "commit failed" ∧
    (AnchoreServiceFeed_sync "feedA" c2SyncGroup [gdr1] db1 (some meta1)
      now5 true none).meta = some meta1 :=
  C7_amended_timestamp_error_propagates "feedA" c2SyncGroup [gdr1] db1
    (some meta1) now5 true none "commit failed" (by rfl)

/-- The chunked generic merge loop never touches the group metadata rows:
both the committed state it reports and any final session keep the groups of
its inputs. -/
theorem process_records_groups
    (m : RawRecord → Except String GenericFeedDataRecord)
    (G : List FeedGroupMetadata) :
    ∀ (records : List RawRecord) (committed session : DbState)
      (count total : Nat),
      committed.groups = G → session.groups = G →
      ((process_records m records committed session count total).1.groups = G ∧
       ∀ s t, (process_records m records committed session count total).2 =
           .ok (s, t) → s.groups = G) := by
  intro records
  induction records with
  | nil =>
    intro committed session count total h1 h2
    refine ⟨h1, ?_⟩
    intro s t h
    simp only [process_records, Except.ok.injEq, Prod.mk.injEq] at h
    rw [← h.1]
    exact h2
  | cons r rest ih =>
    intro committed session count total h1 h2
    unfold process_records
    cases hm : m r with
    | error e =>
      refine ⟨h1, ?_⟩
      intro s t h
      simp at h
    | ok mapped =>
      by_cases hc : count + 1 ≥ RECORDS_PER_CHUNK
      · simp only [hc, if_true]
        exact ih { session with rows := merge_generic session.rows mapped }
          { session with rows := merge_generic session.rows mapped } 0 (total + 1)
          h2 h2
      · simp only [hc, if_false]
        exact ih committed { session with rows := merge_generic session.rows mapped }
          (count + 1) (total + 1) h1 h2

/-- The chunked vulnerability merge loop never touches the group metadata
rows. -/
theorem vuln_process_records_groups
    (m : RawRecord → Except String Vulnerability)
    (fn : Option (Vulnerability → List String))
    (G : List FeedGroupMetadata) :
    ∀ (records : List RawRecord) (committed session : VulnDbState)
      (count total : Nat),
      committed.groups = G → session.groups = G →
      ((vuln_process_records m fn records committed session count total).1.groups = G ∧
       ∀ s t, (vuln_process_records m fn records committed session count total).2 =
           .ok (s, t) → s.groups = G) := by
  intro records
  induction records with
  | nil =>
    intro committed session count total h1 h2
    refine ⟨h1, ?_⟩
    intro s t h
    simp only [vuln_process_records, Except.ok.injEq, Prod.mk.injEq] at h
    rw [← h.1]
    exact h2
  | cons r rest ih =>
    intro committed session count total h1 h2
    unfold vuln_process_records
    cases hm : m r with
    | error e =>
      refine ⟨h1, ?_⟩
      intro s t h
      simp at h
    | ok mapped =>
      dsimp only
      cases hu : update_vulnerability session.vulns mapped fn with
      | error e =>
        dsimp only
        refine ⟨h1, ?_⟩
        intro s t h
        simp at h
      | ok p =>
        obtain ⟨ids, vulns2⟩ := p
        dsimp only
        by_cases hc : count + 1 ≥ RECORDS_PER_CHUNK
        · simp only [hc, if_true]
          exact ih { session with vulns := merge_vuln vulns2 mapped }
            { session with vulns := merge_vuln vulns2 mapped } 0 (total + 1)
            h2 h2
        · simp only [hc, if_false]
          exact ih committed { session with vulns := merge_vuln vulns2 mapped }
            (count + 1) (total + 1) h1 h2

/-- After setting the first matching group's `last_sync`, looking the group up
again returns that group with the new timestamp. -/
theorem group_by_name_update_first :
    ∀ (G : List FeedGroupMetadata) (g : String) (t : Timestamp)
      (gm : FeedGroupMetadata),
      group_by_name G g = some gm →
      group_by_name (update_first_group G g t) g =
        some { gm with last_sync := some t } := by
  intro G
  induction G with
  | nil =>
    intro g t gm h
    simp [group_by_name] at h
  | cons x xs ih =>
    intro g t gm h
    by_cases hx : x.name = g
    · have hb : (x.name == g) = true := by simpa using hx
      simp only [group_by_name, List.filter_cons, hb, if_true, List.head?] at h
      injection h with h
      subst h
      simp [update_first_group, group_by_name, hb]
    · have hb : (x.name == g) = false := by simpa using hx
      simp only [group_by_name, List.filter_cons, hb] at h
      simp only [update_first_group, hb, Bool.false_eq_true, if_false,
        group_by_name, List.filter_cons]
      exact ih g t gm h

/-- The two status literals of result records differ. -/
theorem failure_ne_success : ("failure" : String) ≠ "success" := by decide

/-- C3: for every group sync (both the generic and the vulnerability
`_sync_group`): when it completes successfully the persisted group metadata
has `last_sync` equal to the download started instant normalized to UTC, and
when it raises the persisted group metadata rows are unchanged from their
pre-sync value (the failing transaction is rolled back and `last_sync` is only
written in the final transaction). -/
theorem C3_last_sync_updates :
    (∀ (db : DbState) (meta : Option FeedMetadata)
       (mapper : Option (RawRecord → Except String GenericFeedDataRecord))
       (gdr : GroupDownloadResult) (ff : Bool)
       (rr : String → String → List RawRecord) (r : GroupSyncResult),
       ((AnchoreServiceFeed_sync_group db meta mapper gdr ff rr).1 = .ok r →
          r.status = "success" →
          ∃ gm, group_by_name
              (AnchoreServiceFeed_sync_group db meta mapper gdr ff rr).2.groups
              gdr.group = some gm ∧
            gm.last_sync = some (normalize_utc gdr.started)) ∧
       (∀ e, (AnchoreServiceFeed_sync_group db meta mapper gdr ff rr).1 = .error e →
          (AnchoreServiceFeed_sync_group db meta mapper gdr ff rr).2.groups =
            db.groups)) ∧
    (∀ (db : VulnDbState) (meta : Option FeedMetadata)
       (mapper : Option (RawRecord → Except String Vulnerability))
       (fn : Option (Vulnerability → List String))
       (gdr : GroupDownloadResult) (ff : Bool)
       (rr : String → String → List RawRecord) (r : GroupSyncResult),
       ((VulnerabilityFeed_sync_group db meta mapper fn gdr ff rr).1 = .ok r →
          r.status = "success" →
          ∃ gm, group_by_name
              (VulnerabilityFeed_sync_group db meta mapper fn gdr ff rr).2.groups
              gdr.group = some gm ∧
            gm.last_sync = some (normalize_utc gdr.started)) ∧
       (∀ e, (VulnerabilityFeed_sync_group db meta mapper fn gdr ff rr).1 = .error e →
          (VulnerabilityFeed_sync_group db meta mapper fn gdr ff rr).2.groups =
            db.groups)) := by
  constructor
  · intro db meta mapper gdr ff rr r
    constructor
    · intro hok hst
      cases meta with
      | none =>
        simp only [AnchoreServiceFeed_sync_group, Except.ok.injEq] at hok
        rw [← hok] at hst
        exact absurd hst failure_ne_success
      | some m0 =>
        cases hg : group_by_name db.groups gdr.group with
        | none =>
          simp only [AnchoreServiceFeed_sync_group, hg, Except.ok.injEq] at hok
          rw [← hok] at hst
          exact absurd hst failure_ne_success
        | some gm0 =>
          cases mapper with
          | none =>
            simp only [AnchoreServiceFeed_sync_group, hg] at hok
            exact Except.noConfusion hok
          | some mfun =>
            rcases hpr : process_records mfun (rr gdr.feed gdr.group) db
              (if ff then generic_flush_group db else db) 0 0 with ⟨c, res⟩
            cases res with
            | error e =>
              simp only [AnchoreServiceFeed_sync_group, hg, hpr] at hok
              exact Except.noConfusion hok
            | ok p =>
              obtain ⟨s2, tot⟩ := p
              simp only [AnchoreServiceFeed_sync_group, hg, hpr]
              have hsess : (if ff then generic_flush_group db else db).groups =
                  db.groups := by cases ff <;> rfl
              have hs2 : s2.groups = db.groups :=
                (process_records_groups mfun db.groups (rr gdr.feed gdr.group) db
                  (if ff then generic_flush_group db else db) 0 0 rfl hsess).2
                  s2 tot (by rw [hpr])
              have hgb : group_by_name s2.groups gdr.group = some gm0 := by
                rw [hs2]; exact hg
              exact ⟨_, group_by_name_update_first s2.groups gdr.group
                (normalize_utc gdr.started) gm0 hgb, rfl⟩
    · intro e herr
      cases meta with
      | none =>
        simp only [AnchoreServiceFeed_sync_group] at herr
        exact Except.noConfusion herr
      | some m0 =>
        cases hg : group_by_name db.groups gdr.group with
        | none =>
          simp only [AnchoreServiceFeed_sync_group, hg] at herr
          exact Except.noConfusion herr
        | some gm0 =>
          cases mapper with
          | none =>
            simp only [AnchoreServiceFeed_sync_group, hg]
          | some mfun =>
            rcases hpr : process_records mfun (rr gdr.feed gdr.group) db
              (if ff then generic_flush_group db else db) 0 0 with ⟨c, res⟩
            cases res with
            | error e2 =>
              simp only [AnchoreServiceFeed_sync_group, hg, hpr]
              have hsess : (if ff then generic_flush_group db else db).groups =
                  db.groups := by cases ff <;> rfl
              have h1 := (process_records_groups mfun db.groups
                (rr gdr.feed gdr.group) db
                (if ff then generic_flush_group db else db) 0 0 rfl hsess).1
              rw [hpr] at h1
              exact h1
            | ok p =>
              obtain ⟨s2, tot⟩ := p
              simp only [AnchoreServiceFeed_sync_group, hg, hpr] at herr
              exact Except.noConfusion herr
  · intro db meta mapper fn gdr ff rr r
    constructor
    · intro hok hst
      cases meta with
      | none =>
        simp only [VulnerabilityFeed_sync_group] at hok
        exact Except.noConfusion hok
      | some m0 =>
        cases hg : group_by_name db.groups gdr.group with
        | none =>
          simp only [VulnerabilityFeed_sync_group, hg, Except.ok.injEq] at hok
          rw [← hok] at hst
          exact absurd hst failure_ne_success
        | some gm0 =>
          cases mapper with
          | none =>
            simp only [VulnerabilityFeed_sync_group, hg] at hok
            exact Except.noConfusion hok
          | some mfun =>
            rcases hpr : vuln_process_records mfun fn (rr gdr.feed gdr.group) db
              (if ff then vuln_flush_group db gdr.group else db) 0 0 with ⟨c, res⟩
            cases res with
            | error e =>
              simp only [VulnerabilityFeed_sync_group, hg, hpr] at hok
              exact Except.noConfusion hok
            | ok p =>
              obtain ⟨s2, tot⟩ := p
              simp only [VulnerabilityFeed_sync_group, hg, hpr]
              have hsess : (if ff then vuln_flush_group db gdr.group else db).groups =
                  db.groups := by cases ff <;> rfl
              have hs2 : s2.groups = db.groups :=
                (vuln_process_records_groups mfun fn db.groups
                  (rr gdr.feed gdr.group) db
                  (if ff then vuln_flush_group db gdr.group else db) 0 0 rfl hsess).2
                  s2 tot (by rw [hpr])
              have hgb : group_by_name s2.groups gdr.group = some gm0 := by
                rw [hs2]; exact hg
              exact ⟨_, group_by_name_update_first s2.groups gdr.group
                (normalize_utc gdr.started) gm0 hgb, rfl⟩
    · intro e herr
      cases meta with
      | none =>
        simp only [VulnerabilityFeed_sync_group]
      | some m0 =>
        cases hg : group_by_name db.groups gdr.group with
        | none =>
          simp only [VulnerabilityFeed_sync_group, hg] at herr
          exact Except.noConfusion herr
        | some gm0 =>
          cases mapper with
          | none =>
            simp only [VulnerabilityFeed_sync_group, hg]
          | some mfun =>
            rcases hpr : vuln_process_records mfun fn (rr gdr.feed gdr.group) db
              (if ff then vuln_flush_group db gdr.group else db) 0 0 with ⟨c, res⟩
            cases res with
            | error e2 =>
              simp only [VulnerabilityFeed_sync_group, hg, hpr]
              have hsess : (if ff then vuln_flush_group db gdr.group else db).groups =
                  db.groups := by cases ff <;> rfl
              have h1 := (vuln_process_records_groups mfun fn db.groups
                (rr gdr.feed gdr.group) db
                (if ff then vuln_flush_group db gdr.group else db) 0 0 rfl hsess).1
              rw [hpr] at h1
              exact h1
            | ok p =>
              obtain ⟨s2, tot⟩ := p
              simp only [VulnerabilityFeed_sync_group, hg, hpr] at herr
              exact Except.noConfusion herr

/-- C3 witness: the theorem applied to concrete successful and failing group
syncs of both feed kinds; the successful runs set `last_sync` to the download
start normalized to UTC and the failing runs (missing mapper) leave the group
metadata unchanged. -/
theorem C3_witness :
    (∃ gm, group_by_name
        (AnchoreServiceFeed_sync_group db1 (some meta1) (some mapOk) gdr1
          false repo1).2.groups gdr1.group = some gm ∧
      gm.last_sync = some (normalize_utc gdr1.started)) ∧
    (AnchoreServiceFeed_sync_group db1 (some meta1) none gdr1 false repo1).2.groups =
      db1.groups ∧
    (∃ gm, group_by_name
        (VulnerabilityFeed_sync_group vdb1 (some meta1) (some vmapOk)
          (some (fun v => [v.id])) gdrVuln false repo1).2.groups
        gdrVuln.group = some gm ∧
      gm.last_sync = some (normalize_utc gdrVuln.started)) ∧
    (VulnerabilityFeed_sync_group vdb1 (some meta1) none
      (some (fun v => [v.id])) gdrVuln false repo1).2.groups = vdb1.groups :=
  ⟨(C3_last_sync_updates.1 db1 (some meta1) (some mapOk) gdr1 false repo1
      okGroupResult1).1 (by rfl) rfl,
   (C3_last_sync_updates.1 db1 (some meta1) none gdr1 false repo1
      okGroupResult1).2 "No mapper class found for group: g1" (by rfl),
   (C3_last_sync_updates.2 vdb1 (some meta1) (some vmapOk)
      (some (fun v => [v.id])) gdrVuln false repo1 okGroupResult1).1 (by rfl) rfl,
   (C3_last_sync_updates.2 vdb1 (some meta1) none
      (some (fun v => [v.id])) gdrVuln false repo1 okGroupResult1).2
      "No mapper class found for group: g1" (by rfl)⟩

/-- C9: after every `VulnerabilityFeed.sync` invocation the thread-local
group-name cache is empty (`none`): the cache is populated at entry when group
metadata exists and unconditionally flushed in the `finally` block, on the
normal-return path (second conjunct, a run returning a `success` result) and
on the exception path (third conjunct, a run whose timestamp commit raises)
alike. -/
theorem C9_cache_empty_after_sync :
    (∀ (db : VulnDbState) (meta : Option FeedMetadata)
       (cache : Option (List String))
       (mapper : Option (RawRecord → Except String Vulnerability))
       (fn : Option (Vulnerability → List String))
       (rr : String → String → List RawRecord)
       (manifest : List GroupDownloadResult) (ff : Bool) (now : Timestamp)
       (tf : Bool) (op : Option String),
       (VulnerabilityFeed_sync db meta cache mapper fn rr manifest ff now tf op).2 =
         none) ∧
    ((VulnerabilityFeed_sync vdb1 (some meta1) (some ["g1"]) (some vmapOk) none
        repo1 [gdrVuln] false now5 false none).1.result =
      .ok { feed := some "vulnerabilities", status := "success"
            total_time_seconds := 0, groups := [okGroupResult1] } ∧
     (VulnerabilityFeed_sync vdb1 (some meta1) (some ["g1"]) (some vmapOk) none
        repo1 [gdrVuln] false now5 false none).2 = none) ∧
    ((VulnerabilityFeed_sync vdb1 (some meta1) (some ["g1"]) (some vmapOk) none
        repo1 [gdrVuln] false now5 true none).1.result = .error "commit failed" ∧
     (VulnerabilityFeed_sync vdb1 (some meta1) (some ["g1"]) (some vmapOk) none
        repo1 [gdrVuln] false now5 true none).2 = none) := by
  refine ⟨?_, ⟨by rfl, rfl⟩, ⟨by rfl, rfl⟩⟩
  intro db meta cache mapper fn rr manifest ff now tf op
  rfl

/-- C10: `VulnerabilityFeed.sync` delegates to the inherited sync with
`operation_id = None` no matter which operation id it was given (the source
calls `super().sync(fetched_data, full_flush, event_client)`), so the whole
observable outcome — result, events, logs, database state, metadata and cache
— is identical for any two operation-id values. -/
theorem C10_operation_id_ignored :
    ∀ (db : VulnDbState) (meta : Option FeedMetadata)
      (cache : Option (List String))
      (mapper : Option (RawRecord → Except String Vulnerability))
      (fn : Option (Vulnerability → List String))
      (rr : String → String → List RawRecord)
      (manifest : List GroupDownloadResult) (ff : Bool) (now : Timestamp)
      (tf : Bool) (op1 op2 : Option String),
      VulnerabilityFeed_sync db meta cache mapper fn rr manifest ff now tf op1 =
        VulnerabilityFeed_sync db meta cache mapper fn rr manifest ff now tf op2 ∧
      (VulnerabilityFeed_sync db meta cache mapper fn rr manifest ff now tf op1).1 =
        AnchoreServiceFeed_sync "vulnerabilities"
          (fun st g => VulnerabilityFeed_sync_group st meta mapper fn g ff rr)
          manifest db meta now tf none := by
  intro db meta cache mapper fn rr manifest ff now tf op1 op2
  exact ⟨rfl, rfl⟩
